import Mathlib

/-!
# Verification of the lectora realtime presence / broadcast server

A shallow embedding of the socket/HTTP server (`src/unnamed/part_000`) of the
lectora repository.  JavaScript `Map`s are modelled as insertion-ordered
association lists with string keys (matching `Map.set`'s update-in-place and
`Map.forEach`'s insertion-order iteration).  Asynchronous database calls are
modelled by emitting the insert request as an action and parameterising the
handler over the outcome (generated row id, or failure) that the callback
observes.  Wall-clock time (`Date.now()`) is an explicit `Nat` (milliseconds),
and `setTimeout` eviction timers are kept as an explicit pending-timer list
that a `fireTimers` step discharges.
-/

namespace Lectora

/-- A JavaScript `Map` with string keys: an insertion-ordered association
list.  `Map.set` updates an existing key in place (keeping its position) and
appends a fresh key at the end; `Map.forEach` iterates in that order. -/
abbrev JsMap (β : Type) := List (String × β)

/-- `Map.get`: value of the first (and, for maps built by `mapSet`, only)
entry with the given key. -/
def mapGet {β : Type} (m : JsMap β) (k : String) : Option β :=
  match m with
  | [] => none
  | e :: rest => if e.1 = k then some e.2 else mapGet rest k

/-- `Map.has`. -/
def mapHas {β : Type} (m : JsMap β) (k : String) : Bool :=
  (mapGet m k).isSome

/-- `Map.set`: replace in place if the key exists, else append. -/
def mapSet {β : Type} (m : JsMap β) (k : String) (v : β) : JsMap β :=
  match m with
  | [] => [(k, v)]
  | e :: rest => if e.1 = k then (k, v) :: rest else e :: mapSet rest k v

/-- `Map.delete`. -/
def mapDelete {β : Type} (m : JsMap β) (k : String) : JsMap β :=
  m.filter (fun e => e.1 ≠ k)

/-! ## JavaScript value helpers -/

/-- JavaScript `a || d` for a string `a` (the empty string is the only falsy
string). -/
def jsOrS (a : String) (d : String) : String :=
  if a = "" then d else a

/-- JavaScript `a || d` where `a` may be `undefined`/`null` (modelled as
`none`) or a string. -/
def jsOrOpt (a : Option String) (d : String) : String :=
  match a with
  | none => d
  | some s => jsOrS s d

/-- A JavaScript primitive that can appear as a room identifier: a string or
a number. -/
inductive JsVal where
  | vStr (s : String)
  | vNum (n : Int)
  deriving DecidableEq, Repr

/-- JavaScript truthiness of a primitive: `""` and `0` are falsy. -/
def JsVal.truthy : JsVal → Bool
  | .vStr s => s ≠ ""
  | .vNum n => n ≠ 0

/-- JavaScript `String(v)` on a primitive. -/
def JsVal.asString : JsVal → String
  | .vStr s => s
  | .vNum n => toString n

/-- JavaScript `a || b` on optional primitives (`none` = absent field,
hence falsy). -/
def jsOrVal (a b : Option JsVal) : Option JsVal :=
  match a with
  | some v => if v.truthy then some v else b
  | none => b

/-- JavaScript `String(x)` where `x` may be `undefined` (absent). -/
def stringOfOptVal : Option JsVal → String
  | none => "undefined"
  | some v => v.asString

/-- ASCII lowercasing of one character (what `toLowerCase` does on the
ASCII range; all cohort values in this system are ASCII). -/
def lowerChar (c : Char) : Char :=
  if 'A' ≤ c ∧ c ≤ 'Z' then Char.ofNat (c.toNat + 32) else c

/-- `s.toLowerCase()` (character-wise ASCII lowering). -/
def lowerStr (s : String) : String :=
  ⟨s.data.map lowerChar⟩

/-- The cohort normalisation `(x || 'morning').toLowerCase()` used by every
notification audience scan. -/
def normCohort (s : String) : String :=
  lowerStr (jsOrS s "morning")

/-! ## Data model -/

/-- Value stored in `connectedUsers` for a registered socket
(`{ id, name, role, studyType }`, with `studyType` already normalised by
`register_user`). -/
structure UserData where
  id : Int
  name : String
  role : String
  studyType : String
  deriving DecidableEq, Repr

/-- Payload of `register_user` (its `studyType` may be absent). -/
structure RegisterData where
  id : Int
  name : String
  role : String
  studyType : Option String
  deriving DecidableEq, Repr

/-- Value stored in a room's participant map (`{ userId, userName, role }`). -/
structure Participant where
  userId : Int
  userName : String
  role : String
  deriving DecidableEq, Repr

/-- Structured `join_room` payload `{ roomId | room, userId, userName, role }`;
absent fields are `none`. -/
structure JoinObj where
  roomId : Option JsVal
  room : Option JsVal
  userId : Option Int
  userName : Option String
  role : Option String
  deriving DecidableEq, Repr

/-- A `join_room` payload: a bare primitive or a structured object. -/
inductive JoinData where
  | prim (v : JsVal)
  | obj (o : JoinObj)
  deriving DecidableEq, Repr

/-- Payload of `send_message`.  `room` is kept after the `String(...)`
coercion the handler applies; optional fields are absent (`none`) or a
string. -/
structure MessageData where
  room : String
  sender_id : Int
  sender_name : String
  content : String
  type : Option String
  file_path : Option String
  tempId : Option String
  role : Option String
  avatar : Option String
  studyType : Option String
  deriving DecidableEq, Repr

/-- The `messageToSend` object broadcast after a successful insert (the
wall-clock `timestamp` string is omitted).  Fields that a given broadcast
leaves absent are `none`. -/
structure OutMessage where
  id : Nat
  sender_id : Int
  sender_name : String
  content : String
  type : String
  file_path : Option String
  tempId : Option String
  role : Option String
  avatar : Option String
  studyType : Option String
  deriving DecidableEq, Repr

/-- Row returned by the pin route's SELECT: the message joined with its room's
and its sender's study type (`LEFT JOIN`, so the joined columns may be NULL). -/
structure PinnedMessage where
  id : Nat
  room : String
  sender_name : String
  content : String
  roomStudyType : Option String
  roomName : Option String
  senderStudyType : Option String
  deriving DecidableEq, Repr

/-- Payload of `send_notification` (a manual alert from a representative). -/
structure NotifData where
  professor_id : Int
  professor_name : String
  message : String
  deriving DecidableEq, Repr

/-- An outbound socket.io event. -/
inductive Emit where
  | activeStudentCount (room : String) (count : Nat)
  | receiveMessage (room : String) (msg : OutMessage)
  | dashboardUpdate (roomId : String) (msg : OutMessage)
  | newNotification (socketId : String) (id : Nat) (title : String) (body : String)
  | messagePinUpdated (room : String) (messageId : String) (isPinned : Bool)
  deriving DecidableEq, Repr

/-- A request issued to the durable store. -/
inductive DbAction where
  | insertMessage (room : String) (senderId : Int) (senderName : String)
      (content : String) (type : String) (filePath : Option String)
  | insertNotification (userId : Int) (title : String) (message : String)
      (senderId : Option Int) (senderName : Option String)
  deriving DecidableEq, Repr

/-- One externally visible step of a handler, in program order. -/
inductive Action where
  | db (a : DbAction)
  | emit (e : Emit)
  deriving DecidableEq, Repr

/-- The server's mutable state: the two registries, the dedup window and its
pending eviction timers (token, absolute fire time in ms). -/
structure ServerState where
  connectedUsers : JsMap UserData
  roomParticipants : JsMap (JsMap Participant)
  recentMessages : JsMap Nat
  timers : List (String × Nat)
  deriving DecidableEq, Repr

/-- State at process start. -/
def initState : ServerState :=
  { connectedUsers := [], roomParticipants := [], recentMessages := [], timers := [] }

/-! ## Handlers -/

/-- Number of participants of a room with role `'student'`
(the filter inside `emitActiveStudentCount`). -/
def studentCount (parts : JsMap Participant) : Nat :=
  (parts.filter (fun p => p.2.role == "student")).length

/-- `emitActiveStudentCount(room)`: reads the participant map of `room` from
the given registry and emits the student count (0 when the room is absent). -/
def activeCountEmit (rp : JsMap (JsMap Participant)) (room : String) : Emit :=
  match mapGet rp room with
  | none => .activeStudentCount room 0
  | some parts => .activeStudentCount room (studentCount parts)

/-- `register_user`: stores the identity under the socket id, normalising
`studyType` with `userData.studyType || 'morning'`. -/
def registerUser (st : ServerState) (sid : String) (d : RegisterData) : ServerState :=
  let u : UserData :=
    { id := d.id, name := d.name, role := d.role, studyType := jsOrOpt d.studyType "morning" }
  { st with connectedUsers := mapSet st.connectedUsers sid u }

/-- The room identifier a `join_room` payload resolves to:
`String(isPrimitive ? data : (data.roomId || data.room))`. -/
def joinRoomId : JoinData → String
  | .prim v => v.asString
  | .obj o => stringOfOptVal (jsOrVal o.roomId o.room)

/-- Truthiness of `userId && userName && role` on a `join_room` payload
(fields of a bare primitive payload are `null`). -/
def joinFullInfo : JoinData → Bool
  | .prim _ => false
  | .obj o =>
    (match o.userId with | some n => n != 0 | none => false) &&
    (match o.userName with | some s => s != "" | none => false) &&
    (match o.role with | some s => s != "" | none => false)

/-- The participant record a full-identity `join_room` payload stores. -/
def joinParticipant : JoinData → Participant
  | .prim _ => { userId := 0, userName := "", role := "" }
  | .obj o =>
    { userId := o.userId.getD 0, userName := o.userName.getD "", role := o.role.getD "" }

/-- `join_room`.  Returns the new state, the channel the transport was
subscribed to (`socket.join`), if any, and the emitted events. -/
def joinRoom (st : ServerState) (sid : String) (d : JoinData) :
    ServerState × Option String × List Emit :=
  let roomId := joinRoomId d
  if roomId = "" ∨ roomId = "undefined" ∨ roomId = "null" then
    (st, none, [])
  else
    -- socket.join(roomId)
    if joinFullInfo d then
      let parts := (mapGet st.roomParticipants roomId).getD []
      let parts' := mapSet parts sid (joinParticipant d)
      ({ st with roomParticipants := mapSet st.roomParticipants roomId parts' },
       some roomId, [activeCountEmit (mapSet st.roomParticipants roomId parts') roomId])
    else
      (st, some roomId, [])

/-- `leave_room`.  The payload's `roomId` is used as a map key without
coercion, and JavaScript `Map` keys are compared with SameValueZero, so only
a string `roomId` can match the (always string) stored keys. -/
def leaveRoom (st : ServerState) (sid : String) (roomId : Option JsVal) :
    ServerState × List Emit :=
  match roomId with
  | some (.vStr r) =>
    match mapGet st.roomParticipants r with
    | none => (st, [])
    | some parts =>
      let parts' := mapDelete parts sid
      ({ st with roomParticipants := mapSet st.roomParticipants r parts' },
       [activeCountEmit (mapSet st.roomParticipants r parts') r])
  | _ => (st, [])

/-- The `roomParticipants.forEach` loop of the `disconnect` handler: delete
the socket from every room that contains it and emit the recomputed count
for each such room, in iteration order. -/
def discRooms (sid : String) : JsMap (JsMap Participant) → JsMap (JsMap Participant) × List Emit
  | [] => ([], [])
  | (room, parts) :: rest =>
    let r := discRooms sid rest
    if mapHas parts sid then
      let parts' := mapDelete parts sid
      ((room, parts') :: r.1, .activeStudentCount room (studentCount parts') :: r.2)
    else
      ((room, parts) :: r.1, r.2)

/-- `disconnect`: remove the socket from `connectedUsers` and from every
room's participant map, republishing the active count of each affected
room. -/
def disconnect (st : ServerState) (sid : String) : ServerState × List Emit :=
  let r := discRooms sid st.roomParticipants
  ({ st with connectedUsers := mapDelete st.connectedUsers sid, roomParticipants := r.1 },
   r.2)

/-- The dedup check at the top of `send_message`: reject when the token is
truthy, already in `recentMessages`, and was inserted less than 5000 ms
ago. -/
def dedupReject (st : ServerState) (now : Nat) (tempId : Option String) : Bool :=
  match tempId with
  | none => false
  | some t =>
    if t = "" then false
    else
      match mapGet st.recentMessages t with
      | none => false
      | some lastSeen => now - lastSeen < 5000

/-- `send_message`.  `now` is `Date.now()`; `dbResult` is the outcome the
`db.run` callback observes (`some id` = generated row id, `none` =
persistence error).  Returns the new state and the issued actions in program
order. -/
def sendMessage (st : ServerState) (now : Nat) (md : MessageData) (dbResult : Option Nat) :
    ServerState × List Action :=
  if dedupReject st now md.tempId then
    (st, [])
  else
    let st1 :=
      match md.tempId with
      | some t =>
        if t = "" then st
        else
          { st with recentMessages := mapSet st.recentMessages t now,
                    timers := st.timers ++ [(t, now + 10000)] }
      | none => st
    let insertAct : Action :=
      .db (.insertMessage md.room md.sender_id md.sender_name md.content
            (jsOrOpt md.type "text") md.file_path)
    match dbResult with
    | none => (st1, [insertAct])
    | some messageId =>
      let messageToSend : OutMessage :=
        { id := messageId
          sender_id := md.sender_id
          sender_name := md.sender_name
          content := md.content
          type := jsOrOpt md.type "text"
          file_path := md.file_path
          tempId := md.tempId
          role := some (jsOrOpt md.role "student")
          avatar := match md.avatar with | some s => if s = "" then none else some s | none => none
          studyType := some (jsOrOpt md.studyType "evening") }
      (st1, [insertAct,
             .emit (.receiveMessage md.room messageToSend),
             .emit (.dashboardUpdate md.room messageToSend)])

/-- Run every `setTimeout(() => recentMessages.delete(tempId), 10000)` whose
fire time has been reached. -/
def fireTimers (st : ServerState) (now : Nat) : ServerState :=
  { st with
      recentMessages :=
        (st.timers.filter (fun e => e.2 ≤ now)).foldl (fun m e => mapDelete m e.1)
          st.recentMessages,
      timers := st.timers.filter (fun e => ¬ e.2 ≤ now) }

/-- A `send_message` arriving at wall-clock time `now`: all timers due by
`now` have fired before the handler runs. -/
def timedSend (st : ServerState) (now : Nat) (md : MessageData) (dbResult : Option Nat) :
    ServerState × List Action :=
  sendMessage (fireTimers st now) now md dbResult

/-! ## Notification fan-outs

Each fan-out loop issues, per selected connection, one notification insert
and — when that insert's callback reports success with generated id `nid` —
one `new_notification` emit to that connection's socket.  `outcome k` is the
result of the `k`-th insert of the loop. -/

/-- The shared insert-then-emit body of the three notification loops, with
`k` counting the inserts issued so far. -/
def notifyActsFrom (title body : String) (senderId : Option Int) (senderName : Option String)
    (outcome : Nat → Option Nat) (k : Nat) : List (String × UserData) → List Action
  | [] => []
  | e :: rest =>
    Action.db (.insertNotification e.2.id title body senderId senderName) ::
    ((match outcome k with
      | some nid => [Action.emit (.newNotification e.1 nid title body)]
      | none => []) ++
     notifyActsFrom title body senderId senderName outcome (k + 1) rest)

/-- The shared insert-then-emit body of the three notification loops. -/
def notifyActs (targets : List (String × UserData)) (title body : String)
    (senderId : Option Int) (senderName : Option String) (outcome : Nat → Option Nat) :
    List Action :=
  notifyActsFrom title body senderId senderName outcome 0 targets

/-- Audience of `send_notification`: every connection whose normalised cohort
equals the sender's and whose user id differs from the sender's. -/
def manualTargets (users : JsMap UserData) (senderStudyType : String) (professorId : Int) :
    List (String × UserData) :=
  users.filter (fun e => normCohort e.2.studyType == senderStudyType && e.2.id != professorId)

/-- `(senderData?.studyType || 'morning').toLowerCase()` — the sender's
normalised cohort (absent sender entry behaves like an absent cohort). -/
def manualSenderCohort (st : ServerState) (sid : String) : String :=
  normCohort (match mapGet st.connectedUsers sid with | none => "" | some u => u.studyType)

/-- `send_notification` (manual alert from a representative). -/
def sendNotificationActions (st : ServerState) (sid : String) (d : NotifData)
    (outcome : Nat → Option Nat) : List Action :=
  let title := "📢 إشعار من " ++ d.professor_name
  let body := d.message
  notifyActs (manualTargets st.connectedUsers (manualSenderCohort st sid) d.professor_id)
    title body (some d.professor_id) (some d.professor_name) outcome

/-- Audience of the lecture-update fan-out: matching cohort and not the
lecture's owner. -/
def lectureTargets (users : JsMap UserData) (targetStudyType : String) (editingUserId : Int) :
    List (String × UserData) :=
  users.filter (fun e =>
    normCohort e.2.studyType == normCohort targetStudyType && e.2.id != editingUserId)

/-- The notification part of `PUT /api/lectures/:id` (after significant
changes were detected). -/
def lectureUpdateActions (users : JsMap UserData) (lectureStudyType : Option String)
    (editingUserId : Int) (title body : String) (outcome : Nat → Option Nat) : List Action :=
  let targetStudyType := jsOrOpt lectureStudyType "morning"
  notifyActs (lectureTargets users targetStudyType editingUserId) title body none none outcome

/-- Audience of the pin fan-out: matching cohort, keeping only the first
connection of each user id (the `notifiedUserIds` set). -/
def pinTargets (targetStudy : String) (seen : List Int) :
    JsMap UserData → List (String × UserData)
  | [] => []
  | e :: rest =>
    if normCohort e.2.studyType == targetStudy && !(seen.contains e.2.id) then
      e :: pinTargets targetStudy (e.2.id :: seen) rest
    else
      pinTargets targetStudy seen rest

/-- `message.content.length > 50 ? message.content.substring(0, 50) + '...'
: message.content` (string length/slicing in characters). -/
def pinPreview (content : String) : String :=
  if content.length > 50 then content.take 50 ++ "..." else content

/-- The pin notification body. -/
def pinNotificationBody (senderName content : String) : String :=
  "من " ++ senderName ++ ": " ++ pinPreview content

/-- `message.roomStudyType || message.senderStudyType || 'morning'` — the
cohort the pin fan-out targets. -/
def pinTargetCohort (msg : PinnedMessage) : String :=
  jsOrOpt msg.roomStudyType (jsOrOpt msg.senderStudyType "morning")

/-- The pinning (`is_pinned = true`) branch of `PUT /api/messages/:id/pin`:
notification burst, synthetic system message, and the `message_pin_updated`
broadcast.  `sysMsgResult` is the outcome of the system-message insert. -/
def pinCascade (users : JsMap UserData) (msg : PinnedMessage)
    (outcome : Nat → Option Nat) (sysMsgResult : Option Nat) : List Action :=
  let roomName := jsOrOpt msg.roomName (jsOrS msg.room "دردشة")
  let notificationTitle := "📌 رسالة مثبتة في " ++ roomName
  let notificationBody := pinNotificationBody msg.sender_name msg.content
  let notifActs :=
    notifyActs (pinTargets (normCohort (pinTargetCohort msg)) [] users)
      notificationTitle notificationBody none none outcome
  let pinnedMsgIdStr := toString msg.id
  let sysInsert : Action :=
    .db (.insertMessage msg.room (-1) "النظام" msg.content "system" (some pinnedMsgIdStr))
  let sysActs :=
    match sysMsgResult with
    | none => [sysInsert]
    | some sysId =>
      let sysMessage : OutMessage :=
        { id := sysId, sender_id := -1, sender_name := "النظام", content := msg.content,
          type := "system", file_path := some pinnedMsgIdStr, tempId := none, role := none,
          avatar := none, studyType := none }
      [sysInsert, .emit (.receiveMessage msg.room sysMessage),
       .emit (.dashboardUpdate msg.room sysMessage)]
  notifActs ++ sysActs ++ [.emit (.messagePinUpdated msg.room pinnedMsgIdStr true)]

/-! ## Membership event traces -/

/-- A membership-affecting inbound event. -/
inductive SEvent where
  | register (sid : String) (d : RegisterData)
  | join (sid : String) (d : JoinData)
  | leave (sid : String) (roomId : Option JsVal)
  | disc (sid : String)
  deriving DecidableEq, Repr

/-- One inbound event's effect on the state and its emitted events. -/
def stepEvent (st : ServerState) : SEvent → ServerState × List Emit
  | .register sid d => (registerUser st sid d, [])
  | .join sid d => let r := joinRoom st sid d; (r.1, r.2.2)
  | .leave sid roomId => leaveRoom st sid roomId
  | .disc sid => disconnect st sid

/-- Run a sequence of events, recording each post-state with the events that
step emitted. -/
def runTrace (st : ServerState) : List SEvent → List (ServerState × List Emit)
  | [] => []
  | e :: es =>
    let r := stepEvent st e
    (r.1, r.2) :: runTrace r.1 es

/-- The number of participants of `room` with role `'student'`, read off a
room registry. -/
def partsStudentCount (rp : JsMap (JsMap Participant)) (room : String) : Nat :=
  match mapGet rp room with
  | none => 0
  | some parts => studentCount parts

/-- The number of currently-joined participants of `room` with role
`'student'`, read off the state. -/
def roomStudentCount (st : ServerState) (room : String) : Nat :=
  partsStudentCount st.roomParticipants room

/-- Projection: user ids of the notification-insert actions of a trace. -/
def insertedNotifUserIds (acts : List Action) : List Int :=
  acts.filterMap (fun a =>
    match a with
    | .db (.insertNotification uid _ _ _ _) => some uid
    | _ => none)

/-- Projection: bodies of the notification-insert actions of a trace. -/
def insertedNotifBodies (acts : List Action) : List String :=
  acts.filterMap (fun a =>
    match a with
    | .db (.insertNotification _ _ body _ _) => some body
    | _ => none)

/-- Projection: target sockets of the `new_notification` emits of a trace. -/
def emittedNotifSockets (acts : List Action) : List String :=
  acts.filterMap (fun a =>
    match a with
    | .emit (.newNotification s _ _ _) => some s
    | _ => none)

/-- Projection: bodies of the `new_notification` emits of a trace. -/
def emittedNotifBodies (acts : List Action) : List String :=
  acts.filterMap (fun a =>
    match a with
    | .emit (.newNotification _ _ _ body) => some body
    | _ => none)

/-- Projection: the emits of an action trace. -/
def emitsOf (acts : List Action) : List Emit :=
  acts.filterMap (fun a =>
    match a with
    | .emit e => some e
    | _ => none)

/-- Projection: the `studyType` field of each `receive_message` broadcast of
a trace. -/
def broadcastStudyTypes (acts : List Action) : List (Option String) :=
  acts.filterMap (fun a =>
    match a with
    | .emit (.receiveMessage _ m) => some m.studyType
    | _ => none)

/-! ## Association-list map lemmas -/

theorem mapGet_mapSet_self {β : Type} (m : JsMap β) (k : String) (v : β) :
    mapGet (mapSet m k v) k = some v := by
  induction m with
  | nil => simp [mapSet, mapGet]
  | cons e rest ih =>
    by_cases h : e.1 = k
    · simp [mapSet, h, mapGet]
    · simp [mapSet, h, mapGet, ih]

theorem mapGet_mapSet_ne {β : Type} (m : JsMap β) (k k' : String) (v : β) (h : k ≠ k') :
    mapGet (mapSet m k v) k' = mapGet m k' := by
  induction m with
  | nil => simp [mapSet, mapGet, h]
  | cons e rest ih =>
    by_cases he : e.1 = k
    · simp [mapSet, he, mapGet, h]
    · simp [mapSet, he, mapGet, ih]

theorem mapGet_mapDelete_self {β : Type} (m : JsMap β) (k : String) :
    mapGet (mapDelete m k) k = none := by
  induction m with
  | nil => simp [mapDelete, mapGet]
  | cons e rest ih =>
    by_cases h : e.1 = k
    · simpa [mapDelete, h] using ih
    · simpa [mapDelete, mapGet, h] using ih

theorem mapGet_mapDelete_ne {β : Type} (m : JsMap β) (k k' : String) (h : k ≠ k') :
    mapGet (mapDelete m k) k' = mapGet m k' := by
  induction m with
  | nil => simp [mapDelete, mapGet]
  | cons e rest ih =>
    by_cases he : e.1 = k
    · simpa [mapDelete, mapGet, List.filter_cons, he, h] using ih
    · by_cases he' : e.1 = k'
      · simp [mapDelete, mapGet, List.filter_cons, he, he', Ne.symm h]
      · simpa [mapDelete, mapGet, List.filter_cons, he, he'] using ih

theorem mapSet_mapSet_self {β : Type} (m : JsMap β) (k : String) (v w : β) :
    mapSet (mapSet m k v) k w = mapSet m k w := by
  induction m with
  | nil => simp [mapSet]
  | cons e rest ih =>
    by_cases h : e.1 = k
    · simp [mapSet, h]
    · simp [mapSet, h, ih]

theorem length_mapSet_of_has {β : Type} (m : JsMap β) (k : String) (v : β)
    (h : mapHas m k = true) : (mapSet m k v).length = m.length := by
  induction m with
  | nil => simp [mapHas, mapGet] at h
  | cons e rest ih =>
    by_cases he : e.1 = k
    · simp [mapSet, he]
    · have h' : mapHas rest k = true := by simpa [mapHas, mapGet, he] using h
      simp [mapSet, he, ih h']

theorem mapGet_eq_none_iff {β : Type} (m : JsMap β) (k : String) :
    mapGet m k = none ↔ k ∉ m.map Prod.fst := by
  induction m with
  | nil => simp [mapGet]
  | cons e rest ih =>
    by_cases h : e.1 = k
    · simp [mapGet, h]
    · simp [mapGet, h, ih, Ne.symm h]

theorem keys_mapSet_of_has {β : Type} (m : JsMap β) (k : String) (v : β)
    (h : mapHas m k = true) : (mapSet m k v).map Prod.fst = m.map Prod.fst := by
  induction m with
  | nil => simp [mapHas, mapGet] at h
  | cons e rest ih =>
    by_cases he : e.1 = k
    · simp [mapSet, he]
    · have h' : mapHas rest k = true := by simpa [mapHas, mapGet, he] using h
      simp [mapSet, he, ih h']

theorem keys_mapSet_of_not_has {β : Type} (m : JsMap β) (k : String) (v : β)
    (h : mapHas m k = false) : (mapSet m k v).map Prod.fst = m.map Prod.fst ++ [k] := by
  induction m with
  | nil => simp [mapSet]
  | cons e rest ih =>
    by_cases he : e.1 = k
    · simp [mapHas, mapGet, he] at h
    · have h' : mapHas rest k = false := by simpa [mapHas, mapGet, he] using h
      simp [mapSet, he, ih h']

theorem nodup_keys_mapSet {β : Type} (m : JsMap β) (k : String) (v : β)
    (h : (m.map Prod.fst).Nodup) : ((mapSet m k v).map Prod.fst).Nodup := by
  by_cases hh : mapHas m k = true
  · rwa [keys_mapSet_of_has m k v hh]
  · have hh' : mapHas m k = false := by simpa using hh
    rw [keys_mapSet_of_not_has m k v hh']
    have hk : k ∉ m.map Prod.fst := by
      have : mapGet m k = none := by
        unfold mapHas at hh'
        cases hg : mapGet m k with
        | none => rfl
        | some w => rw [hg] at hh'; simp at hh'
      exact (mapGet_eq_none_iff m k).mp this
    simp [List.nodup_append, h, hk]

theorem mapGet_foldl_mapDelete {β : Type} (l : List (String × Nat)) (m : JsMap β) (k : String)
    (h : ∀ e ∈ l, e.1 ≠ k) :
    mapGet (l.foldl (fun acc e => mapDelete acc e.1) m) k = mapGet m k := by
  induction l generalizing m with
  | nil => simp
  | cons e rest ih =>
    have hek : e.1 ≠ k := h e (by simp)
    have hrest : ∀ e' ∈ rest, e'.1 ≠ k := fun e' he' => h e' (by simp [he'])
    simp only [List.foldl_cons]
    rw [ih (mapDelete m e.1) hrest, mapGet_mapDelete_ne m e.1 k hek]

/-! ## Disconnect-loop lemmas -/

theorem discRooms_keys (sid : String) (rp : JsMap (JsMap Participant)) :
    (discRooms sid rp).1.map Prod.fst = rp.map Prod.fst := by
  induction rp with
  | nil => simp [discRooms]
  | cons e rest ih =>
    by_cases h : mapHas e.2 sid
    · simp [discRooms, h, ih]
    · simp [discRooms, h, ih]

theorem discRooms_no_sid (sid : String) (rp : JsMap (JsMap Participant)) :
    ∀ room parts, mapGet (discRooms sid rp).1 room = some parts → mapHas parts sid = false := by
  induction rp with
  | nil => intro room parts h; simp [discRooms, mapGet] at h
  | cons e rest ih =>
    intro room parts h
    by_cases hh : mapHas e.2 sid
    · simp only [discRooms, hh, if_true] at h
      by_cases hr : e.1 = room
      · simp [mapGet, hr] at h
        rw [← h]
        simp [mapHas, mapGet_mapDelete_self]
      · simp [mapGet, hr] at h
        exact ih room parts h
    · simp only [discRooms, hh, if_false] at h
      by_cases hr : e.1 = room
      · simp [mapGet, hr] at h
        rw [← h]
        simpa using hh
      · simp [mapGet, hr] at h
        exact ih room parts h

theorem discRooms_emit_room_mem (sid : String) (rp : JsMap (JsMap Participant)) :
    ∀ room c, Emit.activeStudentCount room c ∈ (discRooms sid rp).2 →
      room ∈ rp.map Prod.fst := by
  induction rp with
  | nil => intro room c h; simp [discRooms] at h
  | cons e rest ih =>
    intro room c h
    by_cases hh : mapHas e.2 sid
    · simp only [discRooms, hh, if_true, List.mem_cons] at h
      rcases h with h | h
      · simp [Emit.activeStudentCount.injEq] at h
        simp [h.1]
      · simpa using Or.inr (ih room c h)
    · simp only [discRooms, hh, if_false] at h
      simpa using Or.inr (ih room c h)

theorem discRooms_emit_of_has (sid : String) (rp : JsMap (JsMap Participant)) :
    ∀ room parts, mapGet rp room = some parts → mapHas parts sid = true →
      ∃ c, Emit.activeStudentCount room c ∈ (discRooms sid rp).2 := by
  induction rp with
  | nil => intro room parts h; simp [mapGet] at h
  | cons e rest ih =>
    intro room parts hget hhas
    by_cases hr : e.1 = room
    · simp [mapGet, hr] at hget
      have he2 : mapHas e.2 sid := by rw [hget]; exact hhas
      refine ⟨studentCount (mapDelete e.2 sid), ?_⟩
      simp [discRooms, he2, hr]
    · simp [mapGet, hr] at hget
      rcases ih room parts hget hhas with ⟨c, hc⟩
      by_cases hh : mapHas e.2 sid
      · exact ⟨c, by simp [discRooms, hh, List.mem_cons, hc]⟩
      · exact ⟨c, by simp [discRooms, hh, hc]⟩

theorem discRooms_emit_count (sid : String) (rp : JsMap (JsMap Participant))
    (hnd : (rp.map Prod.fst).Nodup) :
    ∀ room c, Emit.activeStudentCount room c ∈ (discRooms sid rp).2 →
      ∃ parts, mapGet (discRooms sid rp).1 room = some parts ∧ c = studentCount parts := by
  induction rp with
  | nil => intro room c h; simp [discRooms] at h
  | cons e rest ih =>
    intro room c h
    have hnd' : ((rest : JsMap (JsMap Participant)).map Prod.fst).Nodup :=
      (List.nodup_cons.mp hnd).2
    have hfst : e.1 ∉ (rest : JsMap (JsMap Participant)).map Prod.fst :=
      (List.nodup_cons.mp hnd).1
    by_cases hh : mapHas e.2 sid
    · simp only [discRooms, hh, if_true, List.mem_cons] at h
      rcases h with h | h
      · rw [Emit.activeStudentCount.injEq] at h
        refine ⟨mapDelete e.2 sid, ?_, h.2⟩
        simp [discRooms, hh, mapGet, h.1]
      · have hmem : room ∈ (rest : JsMap (JsMap Participant)).map Prod.fst :=
          discRooms_emit_room_mem sid rest room c h
        have hne : e.1 ≠ room := fun hcon => hfst (hcon ▸ hmem)
        rcases ih hnd' room c h with ⟨parts, hget, hc⟩
        refine ⟨parts, ?_, hc⟩
        simp [discRooms, hh, mapGet, hne, hget]
    · simp only [discRooms, hh, if_false] at h
      have hmem : room ∈ (rest : JsMap (JsMap Participant)).map Prod.fst :=
        discRooms_emit_room_mem sid rest room c h
      have hne : e.1 ≠ room := fun hcon => hfst (hcon ▸ hmem)
      rcases ih hnd' room c h with ⟨parts, hget, hc⟩
      refine ⟨parts, ?_, hc⟩
      simp [discRooms, hh, mapGet, hne, hget]

/-! ## Membership invariant and count correctness -/

theorem activeCountEmit_eq (rp : JsMap (JsMap Participant)) (room : String) :
    activeCountEmit rp room = .activeStudentCount room (partsStudentCount rp room) := by
  unfold activeCountEmit partsStudentCount
  split <;> simp_all

/-- Outer keys of the room registry are distinct (holds from process
start and is preserved by every handler). -/
def roomsWF (st : ServerState) : Prop := (st.roomParticipants.map Prod.fst).Nodup

theorem roomsWF_init : roomsWF initState := by simp [roomsWF, initState]

theorem stepEvent_roomsWF (st : ServerState) (e : SEvent) (h : roomsWF st) :
    roomsWF (stepEvent st e).1 := by
  cases e with
  | register sid d => simpa [stepEvent, registerUser, roomsWF] using h
  | join sid d =>
    simp only [stepEvent]
    unfold joinRoom
    by_cases hv : joinRoomId d = "" ∨ joinRoomId d = "undefined" ∨ joinRoomId d = "null"
    · simpa [hv] using h
    · by_cases hf : joinFullInfo d = true
      · simp only [if_neg hv, if_pos hf]
        exact nodup_keys_mapSet _ _ _ h
      · simpa [hv, hf] using h
  | leave sid roomId =>
    simp only [stepEvent]
    unfold leaveRoom
    cases roomId with
    | none => exact h
    | some v =>
      cases v with
      | vStr r =>
        cases hg : mapGet st.roomParticipants r with
        | none => simpa [hg] using h
        | some parts => simpa [hg] using nodup_keys_mapSet _ _ _ h
      | vNum n => exact h
  | disc sid =>
    simp only [stepEvent, disconnect, roomsWF]
    rw [discRooms_keys]
    exact h

theorem stepEvent_count (st : ServerState) (e : SEvent) (h : roomsWF st) :
    ∀ room c, Emit.activeStudentCount room c ∈ (stepEvent st e).2 →
      c = roomStudentCount (stepEvent st e).1 room := by
  cases e with
  | register sid d => intro room c hc; simp [stepEvent] at hc
  | join sid d =>
    intro room c hc
    simp only [stepEvent] at hc ⊢
    unfold joinRoom at hc ⊢
    by_cases hv : joinRoomId d = "" ∨ joinRoomId d = "undefined" ∨ joinRoomId d = "null"
    · simp [hv] at hc
    · by_cases hf : joinFullInfo d = true
      · simp only [if_neg hv, if_pos hf, activeCountEmit_eq] at hc ⊢
        simp only [List.mem_singleton, Emit.activeStudentCount.injEq] at hc
        rw [hc.2, hc.1]
        rfl
      · simp [hv, hf] at hc
  | leave sid roomId =>
    intro room c hc
    simp only [stepEvent] at hc ⊢
    unfold leaveRoom at hc ⊢
    cases roomId with
    | none => simp at hc
    | some v =>
      cases v with
      | vStr r =>
        cases hg : mapGet st.roomParticipants r with
        | none => simp [hg] at hc
        | some parts =>
          simp only [hg] at hc ⊢
          rw [activeCountEmit_eq] at hc
          simp only [List.mem_singleton, Emit.activeStudentCount.injEq] at hc
          rw [hc.2, hc.1]
          rfl
      | vNum n => simp at hc
  | disc sid =>
    intro room c hc
    simp only [stepEvent, disconnect] at hc ⊢
    rcases discRooms_emit_count sid st.roomParticipants h room c hc with ⟨parts, hget, hcnt⟩
    rw [hcnt]
    simp [roomStudentCount, partsStudentCount, hget]

theorem runTrace_count (evs : List SEvent) :
    ∀ st, roomsWF st → ∀ p ∈ runTrace st evs, ∀ room c,
      Emit.activeStudentCount room c ∈ p.2 → c = roomStudentCount p.1 room := by
  induction evs with
  | nil => intro st _ p hp; simp [runTrace] at hp
  | cons e rest ih =>
    intro st hwf p hp room c hc
    simp only [runTrace, List.mem_cons] at hp
    rcases hp with hp | hp
    · subst hp
      exact stepEvent_count st e hwf room c hc
    · exact ih (stepEvent st e).1 (stepEvent_roomsWF st e hwf) p hp room c hc

/-! ## Claim C3 -/

/-- C3: For every sequence of join/leave/disconnect events starting at
process start, the active-count published to a room after each membership
change equals the number of currently-joined participants of that room whose
role is `'student'` (representatives and identity-less joiners are not
counted). -/
theorem active_count_is_student_count (evs : List SEvent)
    (p : ServerState × List Emit) (hp : p ∈ runTrace initState evs)
    (room : String) (c : Nat) (hc : Emit.activeStudentCount room c ∈ p.2) :
    c = roomStudentCount p.1 room :=
  runTrace_count evs initState roomsWF_init p hp room c hc

theorem active_count_is_student_count_witness :
    1 = roomStudentCount
      (stepEvent initState (SEvent.join "s1"
        (JoinData.obj ⟨some (JsVal.vStr "r1"), none, some 1, some "a", some "student"⟩))).1
      "r1" :=
  active_count_is_student_count
    [SEvent.join "s1" (JoinData.obj ⟨some (JsVal.vStr "r1"), none, some 1, some "a", some "student"⟩)]
    (stepEvent initState (SEvent.join "s1"
      (JoinData.obj ⟨some (JsVal.vStr "r1"), none, some 1, some "a", some "student"⟩)))
    (by simp [runTrace]) "r1" 1 (by decide)

/-! ## Claim C2 -/

/-- C2 (amended): after disconnect processing for a connection, that
connection is absent from the Connection Registry and from every room's
participant set, and for each room that contained it an active-count is
republished.  (The global mutual-consistency invariant of the original
claim fails: see the counterexample.) -/
theorem disconnect_removes_connection_everywhere (st : ServerState) (sid : String) :
    mapGet ((disconnect st sid).1).connectedUsers sid = none ∧
    (∀ room parts, mapGet ((disconnect st sid).1).roomParticipants room = some parts →
      mapHas parts sid = false) ∧
    (∀ room parts, mapGet st.roomParticipants room = some parts → mapHas parts sid = true →
      ∃ c, Emit.activeStudentCount room c ∈ (disconnect st sid).2) := by
  refine ⟨?_, ?_, ?_⟩
  · simp [disconnect, mapGet_mapDelete_self]
  · intro room parts h
    exact discRooms_no_sid sid st.roomParticipants room parts h
  · intro room parts hget hhas
    exact discRooms_emit_of_has sid st.roomParticipants room parts hget hhas

/-- A state with "s1" registered and joined into room "r1". -/
def c2WitnessState : ServerState :=
  { connectedUsers := [("s1", { id := 1, name := "a", role := "student", studyType := "morning" })]
    roomParticipants := [("r1", [("s1", { userId := 1, userName := "a", role := "student" })])]
    recentMessages := []
    timers := [] }

theorem disconnect_removes_connection_everywhere_witness :
    ∃ c, Emit.activeStudentCount "r1" c ∈ (disconnect c2WitnessState "s1").2 :=
  (disconnect_removes_connection_everywhere c2WitnessState "s1").2.2 "r1"
    [("s1", { userId := 1, userName := "a", role := "student" })] (by decide) (by decide)

/-- State reached by: "B" registers; "A" joins room "r1" with full identity
without ever registering. -/
def c2Joined : ServerState :=
  (joinRoom (registerUser initState "B"
      { id := 2, name := "b", role := "student", studyType := some "morning" }) "A"
    (JoinData.obj ⟨some (JsVal.vStr "r1"), none, some 1, some "a", some "student"⟩)).1

/-- C2 counterexample: after "B"'s disconnect processing completes, room
"r1" still references connectionId "A", which is absent from the Connection
Registry — the claimed mutual-consistency invariant does not hold, because
`join_room` records a participant without requiring registration. -/
theorem disconnect_consistency_counterexample :
    mapGet ((disconnect c2Joined "B").1).roomParticipants "r1"
        = some [("A", { userId := 1, userName := "a", role := "student" })] ∧
    mapGet ((disconnect c2Joined "B").1).connectedUsers "A" = none := by
  decide

/-! ## Claim C7 -/

/-- C7: a `join_room` identifier is coerced to its string representation (a
bare number behaves exactly like its decimal string), and a missing,
`"undefined"`, or `"null"` identifier drops the join: no state mutation, no
transport subscription, no emitted event. -/
theorem join_room_coerces_and_drops_invalid (st : ServerState) (sid : String) :
    (∀ n : Int, joinRoom st sid (.prim (.vNum n)) = joinRoom st sid (.prim (.vStr (toString n)))) ∧
    (∀ d : JoinData,
      joinRoomId d = "" ∨ joinRoomId d = "undefined" ∨ joinRoomId d = "null" →
      joinRoom st sid d = (st, none, [])) := by
  constructor
  · intro n
    rfl
  · intro d hd
    unfold joinRoom
    rw [if_pos hd]

theorem join_room_coerces_and_drops_invalid_witness :
    joinRoom initState "s1" (JoinData.obj ⟨none, none, some 1, some "a", some "student"⟩)
      = (initState, none, []) :=
  (join_room_coerces_and_drops_invalid initState "s1").2
    (JoinData.obj ⟨none, none, some 1, some "a", some "student"⟩) (by decide)

/-! ## Claim C9 -/

/-- C9: repeating a full-identity `join_room` for the same connection and
room is idempotent — the participant entry is overwritten in place (keyed by
connectionId), the stored entry is the payload's participant record, and a
repeat join never grows the room's participant count. -/
theorem join_room_repeat_idempotent (st : ServerState) (sid : String) (d : JoinData)
    (hroom : ¬(joinRoomId d = "" ∨ joinRoomId d = "undefined" ∨ joinRoomId d = "null"))
    (hfull : joinFullInfo d = true) :
    joinRoom ((joinRoom st sid d).1) sid d = joinRoom st sid d ∧
    mapGet ((mapGet ((joinRoom st sid d).1).roomParticipants (joinRoomId d)).getD []) sid
      = some (joinParticipant d) ∧
    (∀ parts, mapGet st.roomParticipants (joinRoomId d) = some parts →
      mapHas parts sid = true →
      ((mapGet ((joinRoom st sid d).1).roomParticipants (joinRoomId d)).getD []).length
        = parts.length) := by
  refine ⟨?_, ?_, ?_⟩
  · simp only [joinRoom, if_neg hroom, if_pos hfull]
    rw [mapGet_mapSet_self]
    simp only [Option.getD_some]
    rw [mapSet_mapSet_self, mapSet_mapSet_self]
  · simp only [joinRoom, if_neg hroom, if_pos hfull]
    rw [mapGet_mapSet_self]
    simp only [Option.getD_some]
    rw [mapGet_mapSet_self]
  · intro parts hget hhas
    simp only [joinRoom, if_neg hroom, if_pos hfull]
    rw [mapGet_mapSet_self]
    simp only [Option.getD_some, hget]
    exact length_mapSet_of_has parts sid (joinParticipant d) hhas

/-! ## Claim C1 -/

/-- C1: when a send carrying token `tok` is accepted at `t1`, the acceptance
records the token's timestamp (check-and-set); a second send with the same
token less than 5 seconds later — with no eviction timer for that token
pending from before — is rejected: it issues no database insert and no
emit at all. -/
theorem duplicate_token_send_rejected
    (st : ServerState) (t1 t2 : Nat) (m1 m2 : MessageData) (r1 r2 : Option Nat) (tok : String)
    (htok1 : m1.tempId = some tok) (htok2 : m2.tempId = some tok) (hne : tok ≠ "")
    (hacc : dedupReject (fireTimers st t1) t1 m1.tempId = false)
    (hnotimer : ∀ f, (tok, f) ∉ st.timers)
    (_hle : t1 ≤ t2) (hwin : t2 - t1 < 5000) :
    mapGet ((timedSend st t1 m1 r1).1).recentMessages tok = some t1 ∧
    (timedSend ((timedSend st t1 m1 r1).1) t2 m2 r2).2 = [] := by
  have hs1 : (timedSend st t1 m1 r1).1
      = { fireTimers st t1 with
          recentMessages := mapSet (fireTimers st t1).recentMessages tok t1,
          timers := (fireTimers st t1).timers ++ [(tok, t1 + 10000)] } := by
    unfold timedSend sendMessage
    rw [hacc]
    cases r1 <;> simp [htok1, hne]
  have hget : mapGet ((timedSend st t1 m1 r1).1).recentMessages tok = some t1 := by
    rw [hs1]
    exact mapGet_mapSet_self _ _ _
  refine ⟨hget, ?_⟩
  have hdue : ∀ e ∈ ((timedSend st t1 m1 r1).1).timers.filter (fun e => e.2 ≤ t2),
      e.1 ≠ tok := by
    intro e he
    rw [hs1] at he
    simp only [List.filter_append, List.mem_append] at he
    rcases he with he | he
    · have hmem0 : e ∈ (fireTimers st t1).timers := List.mem_of_mem_filter he
      have hmem : e ∈ st.timers := by
        unfold fireTimers at hmem0
        exact List.mem_of_mem_filter hmem0
      intro hcon
      exact hnotimer e.2 (by rw [← hcon]; exact hmem)
    · exfalso
      have h5 : ¬ (t1 + 10000 ≤ t2) := by omega
      simp [List.filter_cons, h5] at he
  have hget2 :
      mapGet (fireTimers ((timedSend st t1 m1 r1).1) t2).recentMessages tok = some t1 := by
    unfold fireTimers
    rw [mapGet_foldl_mapDelete _ _ _ hdue]
    exact hget
  have hrej : dedupReject (fireTimers ((timedSend st t1 m1 r1).1) t2) t2 m2.tempId = true := by
    unfold dedupReject
    rw [htok2]
    simp only [hne, if_neg, hget2]
    simpa using hwin
  show (sendMessage (fireTimers ((timedSend st t1 m1 r1).1) t2) t2 m2 r2).2 = []
  unfold sendMessage
  rw [hrej]
  simp

/-- A concrete `send_message` payload carrying token "t1". -/
def c1Msg : MessageData :=
  { room := "r1", sender_id := 1, sender_name := "a", content := "hi", type := none,
    file_path := none, tempId := some "t1", role := none, avatar := none, studyType := none }

theorem duplicate_token_send_rejected_witness :
    mapGet ((timedSend initState 0 c1Msg (some 10)).1).recentMessages "t1" = some 0 ∧
    (timedSend ((timedSend initState 0 c1Msg (some 10)).1) 2000 c1Msg (some 11)).2 = [] :=
  duplicate_token_send_rejected initState 0 2000 c1Msg c1Msg (some 10) (some 11) "t1"
    rfl rfl (by decide) (by decide) (by intro f; simp [initState]) (by decide) (by decide)

/-! ## Claim C10 -/

/-- C10: a token accepted at `t0` and re-accepted at `t1` (between 5 and 10
seconds later) is still evicted by the timer scheduled at the FIRST
acceptance: the timer fires at `t0 + 10000` and deletes the refreshed entry,
so a further send at `t2 < t1 + 5000` (less than 5 seconds after the most
recent acceptance) is accepted again. -/
theorem dedup_eviction_timer_from_first_acceptance
    (t0 t1 t2 : Nat) (m1 m2 m3 : MessageData) (r1 r2 r3 : Option Nat) (tok : String)
    (h1 : m1.tempId = some tok) (h2 : m2.tempId = some tok) (h3 : m3.tempId = some tok)
    (hne : tok ≠ "")
    (ha : t0 + 5000 ≤ t1) (hb : t1 < t0 + 10000)
    (hc : t0 + 10000 ≤ t2) (hd : t2 < t1 + 5000) :
    dedupReject (fireTimers ((timedSend initState t0 m1 r1).1) t1) t1 m2.tempId = false ∧
    mapGet ((timedSend ((timedSend initState t0 m1 r1).1) t1 m2 r2).1).recentMessages tok
      = some t1 ∧
    mapGet (fireTimers ((timedSend ((timedSend initState t0 m1 r1).1) t1 m2 r2).1)
        t2).recentMessages tok = none ∧
    (timedSend ((timedSend ((timedSend initState t0 m1 r1).1) t1 m2 r2).1) t2 m3 r3).2 ≠ [] := by
  have hfi0 : fireTimers initState t0 = initState := rfl
  have hs1 : (timedSend initState t0 m1 r1).1
      = (⟨[], [], [(tok, t0)], [(tok, t0 + 10000)]⟩ : ServerState) := by
    unfold timedSend sendMessage
    rw [hfi0]
    have hr : dedupReject initState t0 m1.tempId = false := by
      unfold dedupReject
      rw [h1]
      simp [hne, initState, mapGet]
    rw [hr]
    cases r1 <;> simp [h1, hne, initState, mapSet]
  have hnb : ¬ (t0 + 10000 ≤ t1) := by omega
  have hfi1 : fireTimers ((timedSend initState t0 m1 r1).1) t1
      = (timedSend initState t0 m1 r1).1 := by
    rw [hs1]
    simp only [fireTimers]
    simp [List.filter_cons, hnb]
  have hno5 : ¬ (t1 - t0 < 5000) := by omega
  have hrej1 : dedupReject (fireTimers ((timedSend initState t0 m1 r1).1) t1) t1 m2.tempId
      = false := by
    rw [hfi1, hs1]
    unfold dedupReject
    rw [h2]
    simp [hne, mapGet, hno5]
  have hs2 : (timedSend ((timedSend initState t0 m1 r1).1) t1 m2 r2).1
      = (⟨[], [], [(tok, t1)], [(tok, t0 + 10000), (tok, t1 + 10000)]⟩ : ServerState) := by
    have hdef : timedSend ((timedSend initState t0 m1 r1).1) t1 m2 r2
        = sendMessage (fireTimers ((timedSend initState t0 m1 r1).1) t1) t1 m2 r2 := rfl
    rw [hdef, hfi1, hs1]
    unfold sendMessage
    have hr : dedupReject (⟨[], [], [(tok, t0)], [(tok, t0 + 10000)]⟩ : ServerState)
        t1 m2.tempId = false := by
      unfold dedupReject
      rw [h2]
      simp [hne, mapGet, hno5]
    rw [hr]
    cases r2 <;> simp [h2, hne, mapSet]
  have hnb2 : ¬ (t1 + 10000 ≤ t2) := by omega
  have hfi2 : fireTimers ((timedSend ((timedSend initState t0 m1 r1).1) t1 m2 r2).1) t2
      = (⟨[], [], [], [(tok, t1 + 10000)]⟩ : ServerState) := by
    rw [hs2]
    simp only [fireTimers]
    simp [List.filter_cons, hc, hnb2, mapDelete, mapGet]
  refine ⟨hrej1, ?_, ?_, ?_⟩
  · rw [hs2]
    simp [mapGet]
  · rw [hfi2]
    simp [mapGet]
  · have hdef : timedSend ((timedSend ((timedSend initState t0 m1 r1).1) t1 m2 r2).1) t2 m3 r3
        = sendMessage (fireTimers ((timedSend ((timedSend initState t0 m1 r1).1) t1 m2
            r2).1) t2) t2 m3 r3 := rfl
    rw [hdef, hfi2]
    unfold sendMessage
    have hr3 : dedupReject (⟨[], [], [], [(tok, t1 + 10000)]⟩ : ServerState) t2 m3.tempId
        = false := by
      unfold dedupReject
      rw [h3]
      simp [hne, mapGet]
    rw [hr3]
    cases r3 <;> simp [h3, hne]

theorem dedup_eviction_timer_from_first_acceptance_witness :
    dedupReject (fireTimers ((timedSend initState 0 c1Msg (some 10)).1) 6000) 6000
        c1Msg.tempId = false ∧
    mapGet ((timedSend ((timedSend initState 0 c1Msg (some 10)).1) 6000 c1Msg
        (some 11)).1).recentMessages "t1" = some 6000 ∧
    mapGet (fireTimers ((timedSend ((timedSend initState 0 c1Msg (some 10)).1) 6000 c1Msg
        (some 11)).1) 10500).recentMessages "t1" = none ∧
    (timedSend ((timedSend ((timedSend initState 0 c1Msg (some 10)).1) 6000 c1Msg
        (some 11)).1) 10500 c1Msg (some 12)).2 ≠ [] :=
  dedup_eviction_timer_from_first_acceptance 0 6000 10500 c1Msg c1Msg c1Msg
    (some 10) (some 11) (some 12) "t1" rfl rfl rfl (by decide)
    (by decide) (by decide) (by decide) (by decide)

theorem join_room_repeat_idempotent_witness :
    joinRoom ((joinRoom initState "s1"
        (JoinData.obj ⟨some (JsVal.vStr "r1"), none, some 1, some "a", some "student"⟩)).1) "s1"
      (JoinData.obj ⟨some (JsVal.vStr "r1"), none, some 1, some "a", some "student"⟩)
      = joinRoom initState "s1"
        (JoinData.obj ⟨some (JsVal.vStr "r1"), none, some 1, some "a", some "student"⟩) :=
  (join_room_repeat_idempotent initState "s1"
    (JoinData.obj ⟨some (JsVal.vStr "r1"), none, some 1, some "a", some "student"⟩)
    (by decide) (by decide)).1

/-! ## Fan-out lemmas -/

theorem insertedNotifUserIds_notifyActsFrom (title body : String) (si : Option Int)
    (sn : Option String) (outcome : Nat → Option Nat) :
    ∀ (targets : List (String × UserData)) (k : Nat),
      insertedNotifUserIds (notifyActsFrom title body si sn outcome k targets)
        = targets.map (fun e => e.2.id) := by
  intro targets
  induction targets with
  | nil => intro k; simp [notifyActsFrom, insertedNotifUserIds]
  | cons e rest ih =>
    intro k
    cases ho : outcome k with
    | none =>
      simp [notifyActsFrom, insertedNotifUserIds, ho, List.filterMap_cons] at ih ⊢
      exact ih (k + 1)
    | some nid =>
      simp [notifyActsFrom, insertedNotifUserIds, ho, List.filterMap_cons,
        List.filterMap_append] at ih ⊢
      exact ih (k + 1)

theorem insertedNotifBodies_notifyActsFrom (title body : String) (si : Option Int)
    (sn : Option String) (outcome : Nat → Option Nat) :
    ∀ (targets : List (String × UserData)) (k : Nat),
      insertedNotifBodies (notifyActsFrom title body si sn outcome k targets)
        = List.replicate targets.length body := by
  intro targets
  induction targets with
  | nil => intro k; simp [notifyActsFrom, insertedNotifBodies]
  | cons e rest ih =>
    intro k
    cases ho : outcome k with
    | none =>
      simp [notifyActsFrom, insertedNotifBodies, ho, List.filterMap_cons,
        List.replicate_succ] at ih ⊢
      exact ih (k + 1)
    | some nid =>
      simp [notifyActsFrom, insertedNotifBodies, ho, List.filterMap_cons,
        List.filterMap_append, List.replicate_succ] at ih ⊢
      exact ih (k + 1)

theorem emittedNotifSockets_notifyActsFrom (title body : String) (si : Option Int)
    (sn : Option String) (outcome : Nat → Option Nat) (hok : ∀ k, outcome k ≠ none) :
    ∀ (targets : List (String × UserData)) (k : Nat),
      emittedNotifSockets (notifyActsFrom title body si sn outcome k targets)
        = targets.map Prod.fst := by
  intro targets
  induction targets with
  | nil => intro k; simp [notifyActsFrom, emittedNotifSockets]
  | cons e rest ih =>
    intro k
    cases ho : outcome k with
    | none => exact absurd ho (hok k)
    | some nid =>
      simp [notifyActsFrom, emittedNotifSockets, ho, List.filterMap_cons,
        List.filterMap_append] at ih ⊢
      exact ih (k + 1)

theorem emittedNotifBodies_notifyActsFrom (title body : String) (si : Option Int)
    (sn : Option String) (outcome : Nat → Option Nat) :
    ∀ (targets : List (String × UserData)) (k : Nat) (b : String),
      b ∈ emittedNotifBodies (notifyActsFrom title body si sn outcome k targets) →
      b = body := by
  intro targets
  induction targets with
  | nil => intro k b hb; simp [notifyActsFrom, emittedNotifBodies] at hb
  | cons e rest ih =>
    intro k b hb
    cases ho : outcome k with
    | none =>
      simp only [notifyActsFrom, emittedNotifBodies, ho, List.filterMap_cons,
        List.nil_append] at hb
      exact ih (k + 1) b hb
    | some nid =>
      simp only [notifyActsFrom, emittedNotifBodies, ho, List.filterMap_cons,
        List.filterMap_append, List.singleton_append] at hb
      rcases List.mem_cons.mp hb with rfl | hb
      · rfl
      · exact ih (k + 1) b hb

theorem pinTargets_ids_aux (t : String) (users : JsMap UserData) :
    ∀ seen : List Int,
      ((pinTargets t seen users).map (fun e => e.2.id)).Nodup ∧
      ∀ uid ∈ (pinTargets t seen users).map (fun e => e.2.id), uid ∉ seen := by
  induction users with
  | nil => intro seen; simp [pinTargets]
  | cons e rest ih =>
    intro seen
    by_cases hcond : (normCohort e.2.studyType == t && !(List.contains seen e.2.id)) = true
    · have hids := ih (e.2.id :: seen)
      have hnotseen : e.2.id ∉ seen := by
        simp only [Bool.and_eq_true, Bool.not_eq_true'] at hcond
        simpa using hcond.2
      constructor
      · simp only [pinTargets, hcond, if_true, List.map_cons, List.nodup_cons]
        refine ⟨fun hmem => (hids.2 e.2.id hmem) (by simp), hids.1⟩
      · intro uid hmem
        simp only [pinTargets, hcond, if_true, List.map_cons, List.mem_cons] at hmem
        rcases hmem with rfl | hmem
        · exact hnotseen
        · intro hin
          exact (hids.2 uid hmem) (by simp [hin])
    · simp only [pinTargets, hcond, if_false]
      exact ih seen

theorem pinTargets_ids_mem (t : String) (users : JsMap UserData) :
    ∀ (seen : List Int) (uid : Int),
      uid ∈ (pinTargets t seen users).map (fun e => e.2.id) ↔
      (uid ∉ seen ∧ ∃ e ∈ users, (normCohort e.2.studyType == t) = true ∧ e.2.id = uid) := by
  induction users with
  | nil => intro seen uid; simp [pinTargets]
  | cons e rest ih =>
    intro seen uid
    by_cases hcond : (normCohort e.2.studyType == t && !(List.contains seen e.2.id)) = true
    · have hmatch : (normCohort e.2.studyType == t) = true := by
        simp only [Bool.and_eq_true] at hcond
        exact hcond.1
      have hnotseen : e.2.id ∉ seen := by
        simp only [Bool.and_eq_true, Bool.not_eq_true'] at hcond
        simpa using hcond.2
      simp only [pinTargets, hcond, if_true, List.map_cons, List.mem_cons]
      rw [ih (e.2.id :: seen) uid]
      constructor
      · rintro (rfl | ⟨hns, e', he', hm', hid'⟩)
        · exact ⟨hnotseen, e, by simp, hmatch, rfl⟩
        · refine ⟨fun hin => hns (by simp [hin]), e', by simp [he'], hm', hid'⟩
      · rintro ⟨hns, e', he', hm', hid'⟩
        by_cases heq : uid = e.2.id
        · exact Or.inl heq
        · refine Or.inr ⟨?_, e', ?_, hm', hid'⟩
          · simp only [List.mem_cons]
            rintro (h | h)
            · exact heq h
            · exact hns h
          · rcases he' with rfl | h
            · exact absurd hid'.symm heq
            · exact h
    · simp only [pinTargets]
      rw [if_neg hcond, ih seen uid]
      constructor
      · rintro ⟨hns, e', he', hm', hid'⟩
        exact ⟨hns, e', by simp [he'], hm', hid'⟩
      · rintro ⟨hns, e', he', hm', hid'⟩
        refine ⟨hns, e', ?_, hm', hid'⟩
        rcases List.mem_cons.mp he' with rfl | h
        · exfalso
          cases hcont : List.contains seen e'.2.id with
          | true =>
            have hin : e'.2.id ∈ seen := by simpa using hcont
            exact hns (hid' ▸ hin)
          | false => exact hcond (by rw [hm', hcont]; rfl)
        · exact h

theorem insertedNotifUserIds_append (l1 l2 : List Action) :
    insertedNotifUserIds (l1 ++ l2) = insertedNotifUserIds l1 ++ insertedNotifUserIds l2 := by
  simp [insertedNotifUserIds, List.filterMap_append]

theorem insertedNotifBodies_append (l1 l2 : List Action) :
    insertedNotifBodies (l1 ++ l2) = insertedNotifBodies l1 ++ insertedNotifBodies l2 := by
  simp [insertedNotifBodies, List.filterMap_append]

theorem emittedNotifSockets_append (l1 l2 : List Action) :
    emittedNotifSockets (l1 ++ l2) = emittedNotifSockets l1 ++ emittedNotifSockets l2 := by
  simp [emittedNotifSockets, List.filterMap_append]

theorem emittedNotifBodies_append (l1 l2 : List Action) :
    emittedNotifBodies (l1 ++ l2) = emittedNotifBodies l1 ++ emittedNotifBodies l2 := by
  simp [emittedNotifBodies, List.filterMap_append]

theorem insertedNotifUserIds_pinCascade (users : JsMap UserData) (msg : PinnedMessage)
    (outcome : Nat → Option Nat) (sysr : Option Nat) :
    insertedNotifUserIds (pinCascade users msg outcome sysr)
      = (pinTargets (normCohort (pinTargetCohort msg)) [] users).map (fun e => e.2.id) := by
  cases sysr <;>
    (simp only [pinCascade, notifyActs]
     rw [insertedNotifUserIds_append, insertedNotifUserIds_append,
       insertedNotifUserIds_notifyActsFrom]
     simp [insertedNotifUserIds])

theorem emittedNotifSockets_pinCascade (users : JsMap UserData) (msg : PinnedMessage)
    (outcome : Nat → Option Nat) (sysr : Option Nat) (hok : ∀ k, outcome k ≠ none) :
    emittedNotifSockets (pinCascade users msg outcome sysr)
      = (pinTargets (normCohort (pinTargetCohort msg)) [] users).map Prod.fst := by
  cases sysr <;>
    (simp only [pinCascade, notifyActs]
     rw [emittedNotifSockets_append, emittedNotifSockets_append,
       emittedNotifSockets_notifyActsFrom _ _ _ _ _ hok]
     simp [emittedNotifSockets])

/-! ## Claim C5 -/

/-- C5: for every accepted send the message insert is issued before any
broadcast; a failed insert produces no `receive_message` and no
`dashboard_update`; a successful insert is followed by the room broadcast
and the dashboard broadcast of a message carrying the generated database id
and the client's original token. -/
theorem message_persisted_before_broadcast (st : ServerState) (now : Nat) (md : MessageData)
    (hacc : dedupReject st now md.tempId = false) :
    ((sendMessage st now md none).2 =
      [Action.db (.insertMessage md.room md.sender_id md.sender_name md.content
        (jsOrOpt md.type "text") md.file_path)]) ∧
    (∀ mid : Nat, ∃ msg : OutMessage,
      (sendMessage st now md (some mid)).2 =
        [Action.db (.insertMessage md.room md.sender_id md.sender_name md.content
           (jsOrOpt md.type "text") md.file_path),
         Action.emit (.receiveMessage md.room msg),
         Action.emit (.dashboardUpdate md.room msg)] ∧
      msg.id = mid ∧ msg.tempId = md.tempId) := by
  constructor
  · unfold sendMessage
    rw [hacc]
    simp
  · intro mid
    refine ⟨{ id := mid, sender_id := md.sender_id, sender_name := md.sender_name,
              content := md.content, type := jsOrOpt md.type "text",
              file_path := md.file_path, tempId := md.tempId,
              role := some (jsOrOpt md.role "student"),
              avatar := match md.avatar with
                        | some s => if s = "" then none else some s
                        | none => none,
              studyType := some (jsOrOpt md.studyType "evening") }, ?_, rfl, rfl⟩
    unfold sendMessage
    rw [hacc]
    simp

theorem message_persisted_before_broadcast_witness :
    (sendMessage initState 0 c1Msg none).2 =
      [Action.db (.insertMessage c1Msg.room c1Msg.sender_id c1Msg.sender_name c1Msg.content
        (jsOrOpt c1Msg.type "text") c1Msg.file_path)] :=
  (message_persisted_before_broadcast initState 0 c1Msg (by decide)).1

/-! ## Claim C8 -/

theorem pinNotificationBody_spec_shape (senderName content : String) :
    pinNotificationBody senderName content
      = "من " ++ senderName ++ ": " ++
        (if content.length ≤ 50 then content else content.take 50 ++ "...") := by
  unfold pinNotificationBody pinPreview
  by_cases h : content.length ≤ 50
  · have h' : ¬ (content.length > 50) := by omega
    simp [h, h']
  · have h' : content.length > 50 := by omega
    simp [h, h']

/-- C8: every persisted and every delivered pin-notification body equals
`"من {sender_name}: {preview}"`, where the preview is the pinned message's
content unmodified when its length is at most 50 characters and its first
50 characters followed by `"..."` when longer. -/
theorem pin_notification_body_correct (users : JsMap UserData) (msg : PinnedMessage)
    (outcome : Nat → Option Nat) (sysr : Option Nat) :
    insertedNotifBodies (pinCascade users msg outcome sysr)
      = List.replicate (pinTargets (normCohort (pinTargetCohort msg)) [] users).length
          ("من " ++ msg.sender_name ++ ": " ++
            (if msg.content.length ≤ 50 then msg.content
             else msg.content.take 50 ++ "...")) ∧
    ∀ b ∈ emittedNotifBodies (pinCascade users msg outcome sysr),
      b = "من " ++ msg.sender_name ++ ": " ++
          (if msg.content.length ≤ 50 then msg.content
           else msg.content.take 50 ++ "...") := by
  constructor
  · rw [← pinNotificationBody_spec_shape]
    cases sysr <;>
      (simp only [pinCascade, notifyActs]
       rw [insertedNotifBodies_append, insertedNotifBodies_append,
         insertedNotifBodies_notifyActsFrom]
       simp [insertedNotifBodies])
  · intro b hb
    rw [← pinNotificationBody_spec_shape]
    refine emittedNotifBodies_notifyActsFrom
      ("📌 رسالة مثبتة في " ++ jsOrOpt msg.roomName (jsOrS msg.room "دردشة"))
      (pinNotificationBody msg.sender_name msg.content) none none outcome
      (pinTargets (normCohort (pinTargetCohort msg)) [] users) 0 b ?_
    revert hb
    cases sysr <;>
      (simp only [pinCascade, notifyActs]
       rw [emittedNotifBodies_append, emittedNotifBodies_append]
       simp [emittedNotifBodies])

/-- One registered morning-cohort student, to receive pin notifications. -/
def c8Users : JsMap UserData :=
  [("sB", { id := 2, name := "b", role := "student", studyType := "morning" })]

/-- The pinned message of the spec's pin scenario. -/
def c8Msg : PinnedMessage :=
  { id := 3, room := "r1", sender_name := "X", content := "Exam moved to Monday",
    roomStudyType := some "morning", roomName := some "R1", senderStudyType := none }

theorem pin_notification_body_correct_witness :
    ("من X: Exam moved to Monday" : String)
      = "من " ++ c8Msg.sender_name ++ ": " ++
        (if c8Msg.content.length ≤ 50 then c8Msg.content
         else c8Msg.content.take 50 ++ "...") :=
  (pin_notification_body_correct c8Users c8Msg (fun _ => some 1) (some 9)).2
    "من X: Exam moved to Monday" (by decide)

/-! ## Claim C4 -/

/-- A registry in which user 7 is connected twice (multi-device). -/
def c4State : ServerState :=
  { connectedUsers :=
      [("s1", { id := 7, name := "u", role := "student", studyType := "morning" }),
       ("s2", { id := 7, name := "u", role := "student", studyType := "morning" })],
    roomParticipants := [], recentMessages := [], timers := [] }

/-- C4 counterexample: with user 7 connected on two devices, the manual
notification fan-out persists TWO notification rows for userId 7, not the
claimed exactly one per distinct target userId. -/
theorem notification_row_per_user_counterexample :
    (insertedNotifUserIds (sendNotificationActions c4State "s9"
      { professor_id := 9, professor_name := "p", message := "m" }
      (fun _ => some 1))).count 7 = 2 := by
  decide

/-- C4 (amended): the manual and lecture-update fan-outs persist one
notification row per matching connection (a multi-device user gets one row
per connection) and deliver the live event once per connection; the pin
fan-out persists exactly one row per distinct target userId (ids are
distinct and cover exactly the users with a matching connection) but
delivers the live event to just one connection per notified user. -/
theorem notification_fanout_amended (st : ServerState) (sid : String) (d : NotifData)
    (users : JsMap UserData) (lstudy : Option String) (euid : Int) (ti bo : String)
    (msg : PinnedMessage) (outcome : Nat → Option Nat) (sysr : Option Nat)
    (hok : ∀ k, outcome k ≠ none) :
    insertedNotifUserIds (sendNotificationActions st sid d outcome)
      = (manualTargets st.connectedUsers (manualSenderCohort st sid) d.professor_id).map
          (fun e => e.2.id) ∧
    emittedNotifSockets (sendNotificationActions st sid d outcome)
      = (manualTargets st.connectedUsers (manualSenderCohort st sid) d.professor_id).map
          Prod.fst ∧
    insertedNotifUserIds (lectureUpdateActions users lstudy euid ti bo outcome)
      = (lectureTargets users (jsOrOpt lstudy "morning") euid).map (fun e => e.2.id) ∧
    emittedNotifSockets (lectureUpdateActions users lstudy euid ti bo outcome)
      = (lectureTargets users (jsOrOpt lstudy "morning") euid).map Prod.fst ∧
    insertedNotifUserIds (pinCascade users msg outcome sysr)
      = (pinTargets (normCohort (pinTargetCohort msg)) [] users).map (fun e => e.2.id) ∧
    ((pinTargets (normCohort (pinTargetCohort msg)) [] users).map (fun e => e.2.id)).Nodup ∧
    (∀ uid : Int,
      uid ∈ (pinTargets (normCohort (pinTargetCohort msg)) [] users).map (fun e => e.2.id) ↔
      ∃ e ∈ users, (normCohort e.2.studyType == normCohort (pinTargetCohort msg)) = true ∧
        e.2.id = uid) ∧
    emittedNotifSockets (pinCascade users msg outcome sysr)
      = (pinTargets (normCohort (pinTargetCohort msg)) [] users).map Prod.fst := by
  refine ⟨?_, ?_, ?_, ?_, ?_, ?_, ?_, ?_⟩
  · unfold sendNotificationActions notifyActs
    exact insertedNotifUserIds_notifyActsFrom _ _ _ _ outcome _ 0
  · unfold sendNotificationActions notifyActs
    exact emittedNotifSockets_notifyActsFrom _ _ _ _ outcome hok _ 0
  · unfold lectureUpdateActions notifyActs
    exact insertedNotifUserIds_notifyActsFrom _ _ _ _ outcome _ 0
  · unfold lectureUpdateActions notifyActs
    exact emittedNotifSockets_notifyActsFrom _ _ _ _ outcome hok _ 0
  · exact insertedNotifUserIds_pinCascade users msg outcome sysr
  · exact (pinTargets_ids_aux (normCohort (pinTargetCohort msg)) users []).1
  · intro uid
    rw [pinTargets_ids_mem (normCohort (pinTargetCohort msg)) users [] uid]
    simp
  · exact emittedNotifSockets_pinCascade users msg outcome sysr hok

theorem notification_fanout_amended_witness :
    insertedNotifUserIds (pinCascade c4State.connectedUsers c8Msg (fun _ => some 1) (some 9))
      = (pinTargets (normCohort (pinTargetCohort c8Msg)) [] c4State.connectedUsers).map
          (fun e => e.2.id) :=
  (notification_fanout_amended c4State "s9"
    { professor_id := 9, professor_name := "p", message := "m" }
    c4State.connectedUsers none 0 "t" "b" c8Msg (fun _ => some 1) (some 9)
    (fun _ => by simp)).2.2.2.2.1

/-! ## Claim C6 -/

/-- C6 counterexample: a message sent without a cohort is broadcast with
`studyType = "evening"` — the defaulted cohort of an outgoing message is
not the claimed universal default "morning". -/
theorem message_cohort_default_counterexample :
    broadcastStudyTypes ((sendMessage initState 0 c1Msg (some 5)).2) = [some "evening"] ∧
    ("evening" : String) ≠ "morning" := by
  decide

/-- C6 (amended): cohort matching in the notification audience selections
(manual, pin, lecture-update) is case-insensitive, an absent or empty
cohort normalises to "morning" there and at registration — but the
defaulted cohort of an outgoing broadcast message is "evening", not
"morning". -/
theorem cohort_normalisation_amended (st : ServerState) (sid : String) (now : Nat)
    (users : JsMap UserData) (c1 c2 : String) (pid euid : Int) (seen : List Int)
    (h12 : normCohort c1 = normCohort c2) :
    manualTargets users (normCohort c1) pid = manualTargets users (normCohort c2) pid ∧
    lectureTargets users c1 euid = lectureTargets users c2 euid ∧
    pinTargets (normCohort c1) seen users = pinTargets (normCohort c2) seen users ∧
    normCohort "Evening" = normCohort "evening" ∧
    normCohort "" = "morning" ∧
    (∀ d : RegisterData, d.studyType = none →
      mapGet (registerUser st sid d).connectedUsers sid
        = some { id := d.id, name := d.name, role := d.role, studyType := "morning" }) ∧
    (∀ (md : MessageData) (mid : Nat), md.studyType = none →
      dedupReject st now md.tempId = false →
      broadcastStudyTypes ((sendMessage st now md (some mid)).2) = [some "evening"]) := by
  refine ⟨by rw [h12], ?_, by rw [h12], by decide, by decide, ?_, ?_⟩
  · unfold lectureTargets
    rw [h12]
  · intro d hd
    unfold registerUser
    simp only []
    rw [mapGet_mapSet_self]
    simp [hd, jsOrOpt]
  · intro md mid hmd hacc
    unfold sendMessage
    rw [hacc]
    simp [broadcastStudyTypes, hmd, jsOrOpt]

theorem cohort_normalisation_amended_witness :
    pinTargets (normCohort "Evening") [] c8Users = pinTargets (normCohort "evening") [] c8Users :=
  (cohort_normalisation_amended initState "s1" 0 c8Users "Evening" "evening" 0 0 []
    (by decide)).2.2.1

end Lectora


